import Mathlib

/-!
# Verification of the exchange execution engine

Shallow embedding of the core of `bybit_live_trading_system.py` and the
`ExtremeMarketProtection` guard of `ai_prompts_manager.py`, together with
theorems settling the frozen claims about the specification.

Modelling conventions:
* Python floats are modelled as exact rationals (`ℚ`).  The float-hygiene
  re-rounding steps in the source (`round(formatted_qty, decimals)` and
  `round(formatted_price, decimals)`) exist only to undo binary floating point
  noise; over exact rationals they are the identity and are elided.
* Python `int(x)` truncates toward zero and `round(x)` rounds half to even;
  both are modelled exactly (`pyInt`, `pyRound`).
* Strings carried only for logging (error messages, reasons) are dropped;
  boolean/state results are kept.
* Exchange and network responses are supplied through explicit environment
  records; the calls made by a function are recorded as a list of `Effect`s.
-/

namespace Engine

/-- Python `int()` applied to a rational: truncation toward zero. -/
def pyInt (x : ℚ) : ℤ :=
  if 0 ≤ x then ⌊x⌋ else ⌈x⌉

/-- Python `round()` applied to a rational: round half to even
(banker's rounding).  Away from a tie it agrees with Mathlib's `round`. -/
def pyRound (x : ℚ) : ℤ :=
  if x - ⌊x⌋ = 1/2 then (if 2 ∣ ⌊x⌋ then ⌊x⌋ else ⌊x⌋ + 1) else round x

/-- Python `round(x, d)`: round to `d` decimal places (half to even). -/
def pyRoundDec (d : ℕ) (x : ℚ) : ℚ :=
  (pyRound (x * (10 : ℚ) ^ d) : ℚ) / (10 : ℚ) ^ d

theorem pyInt_intCast (n : ℤ) : pyInt (n : ℚ) = n := by
  unfold pyInt
  split <;> simp

theorem pyRound_intCast (n : ℤ) : pyRound (n : ℚ) = n := by
  unfold pyRound
  have h : ((n : ℚ) - ⌊(n : ℚ)⌋ : ℚ) = 0 := by simp
  rw [h]
  norm_num

theorem abs_pyRound_sub_le (x : ℚ) : |(pyRound x : ℚ) - x| ≤ 1/2 := by
  unfold pyRound
  split
  · rename_i h
    split
    · rw [abs_sub_comm, abs_of_nonneg (by linarith [Int.floor_le x])]
      linarith
    · have hfl := Int.floor_le x
      push_cast
      rw [abs_of_nonneg (by linarith)]
      linarith
  · rw [abs_sub_comm]
    exact abs_sub_round x

/-- Exchange trading rules for one instrument, as loaded into
`self.trading_rules[symbol]` (`bybit_live_trading_system.py`). -/
structure TradingRules where
  tick_size : ℚ
  min_price : ℚ
  max_price : ℚ
  qty_step : ℚ
  min_order_qty : ℚ
  max_order_qty : ℚ
  min_order_amt : ℚ
  max_order_amt : ℚ
  statusTrading : Bool
  unifiedMarginTrade : Bool
  deriving DecidableEq, Repr

/-- The rounding-to-a-multiple step shared by `_format_price` and
`_format_quantity`: for a step `≥ 1` the source computes
`int(x / step) * step` (truncation), otherwise `round(x / step) * step`
(nearest, ties to even).  The subsequent `round(·, decimals)` of the source
is the identity over exact rationals and is elided. -/
def roundToStep (step : ℚ) (x : ℚ) : ℚ :=
  if 1 ≤ step then (pyInt (x / step) : ℚ) * step
  else (pyRound (x / step) : ℚ) * step

/-- `_format_price` (bybit_live_trading_system.py:3001-3035), in the branch
where the symbol's trading rules are loaded. -/
def formatPrice (r : TradingRules) (price : ℚ) : ℚ :=
  let f := roundToStep r.tick_size price
  let f := if f < r.min_price then r.min_price else f
  if f > r.max_price then r.max_price else f

/-- `_format_quantity` (bybit_live_trading_system.py:2959-2999), in the branch
where the symbol's trading rules are loaded: quantities below the minimum are
raised to the minimum, above the maximum lowered to the maximum. -/
def formatQuantity (r : TradingRules) (qty : ℚ) : ℚ :=
  let f := roundToStep r.qty_step qty
  let f := if f < r.min_order_qty then r.min_order_qty else f
  if f > r.max_order_qty then r.max_order_qty else f

/-- `_format_price` including the fallback when no rules are loaded
(`round(price, 2)`). -/
def formatPriceOpt (r? : Option TradingRules) (price : ℚ) : ℚ :=
  match r? with
  | none => pyRoundDec 2 price
  | some r => formatPrice r price

/-- `_format_quantity` including the fallback when no rules are loaded
(`round(qty, 3)`). -/
def formatQuantityOpt (r? : Option TradingRules) (qty : ℚ) : ℚ :=
  match r? with
  | none => pyRoundDec 3 qty
  | some r => formatQuantity r qty

/-- `x` is an integer multiple of the tick/step `t`. -/
def IsStepMultiple (t x : ℚ) : Prop := ∃ k : ℤ, x = (k : ℚ) * t

theorem roundToStep_isStepMultiple (t x : ℚ) :
    IsStepMultiple t (roundToStep t x) := by
  unfold roundToStep
  split
  · exact ⟨pyInt (x / t), rfl⟩
  · exact ⟨pyRound (x / t), rfl⟩

theorem roundToStep_self_of_multiple {t y : ℚ} (ht : t ≠ 0)
    (hy : IsStepMultiple t y) : roundToStep t y = y := by
  obtain ⟨k, rfl⟩ := hy
  have hdiv : ((k : ℚ) * t) / t = (k : ℚ) := by
    field_simp
  unfold roundToStep
  split <;> rw [hdiv]
  · rw [pyInt_intCast]
  · rw [pyRound_intCast]

theorem roundToStep_eval_small {t x : ℚ} (n : ℤ) (h1 : ¬ 1 ≤ t)
    (h2 : x / t = (n : ℚ)) : roundToStep t x = (n : ℚ) * t := by
  unfold roundToStep
  rw [if_neg h1, h2, pyRound_intCast]

theorem roundToStep_eval_big {t x : ℚ} (n : ℤ) (h1 : 1 ≤ t)
    (h2 : x / t = (n : ℚ)) : roundToStep t x = (n : ℚ) * t := by
  unfold roundToStep
  rw [if_pos h1, h2, pyInt_intCast]

theorem formatPrice_eval (r : TradingRules) (x y : ℚ)
    (h : roundToStep r.tick_size x = y) (h2 : ¬ y < r.min_price)
    (h3 : ¬ y > r.max_price) : formatPrice r x = y := by
  simp only [formatPrice]
  rw [h, if_neg h2, if_neg h3]

theorem formatQuantity_eval (r : TradingRules) (x y : ℚ)
    (h : roundToStep r.qty_step x = y) (h2 : ¬ y < r.min_order_qty)
    (h3 : ¬ y > r.max_order_qty) : formatQuantity r x = y := by
  simp only [formatQuantity]
  rw [h, if_neg h2, if_neg h3]

/-- First take-profit sanity check for a long
(`_validate_stop_loss_take_profit`, LONG branch): rejected exactly when the
list is non-empty, its head is positive and the head is at or below entry. -/
def validTakeProfitLong (entry : ℚ) (tp : List ℚ) : Bool :=
  match tp with
  | [] => true
  | h :: _ => if 0 < h ∧ h ≤ entry then false else true

/-- First take-profit sanity check for a short
(`_validate_stop_loss_take_profit`, SHORT branch). -/
def validTakeProfitShort (entry : ℚ) (tp : List ℚ) : Bool :=
  match tp with
  | [] => true
  | h :: _ => if 0 < h ∧ entry ≤ h then false else true

/-- `_validate_stop_loss_take_profit` (bybit_live_trading_system.py:2311-2360).
Error messages are elided; `true` means valid.  The distance bounds are
0.3% and 20% of the entry price. -/
def validateStopLossTakeProfit (action : String) (entry stop : ℚ)
    (tp : List ℚ) : Bool :=
  if action = "LONG" then
    if 0 < stop then
      if entry ≤ stop then false
      else
        let pct := |entry - stop| / entry * 100
        if pct < 3/10 then false
        else if 20 < pct then false
        else validTakeProfitLong entry tp
    else validTakeProfitLong entry tp
  else if action = "SHORT" then
    if 0 < stop then
      if stop ≤ entry then false
      else
        let pct := |stop - entry| / entry * 100
        if pct < 3/10 then false
        else if 20 < pct then false
        else validTakeProfitShort entry tp
    else validTakeProfitShort entry tp
  else true

/-- `_validate_order` (bybit_live_trading_system.py:3037-3084); `none` models
a symbol whose trading rules were never loaded. -/
def validateOrder (r? : Option TradingRules) (qty price : ℚ) : Bool :=
  match r? with
  | none => false
  | some r =>
    if ¬ r.statusTrading then false
    else if ¬ r.unifiedMarginTrade then false
    else if qty < r.min_order_qty then false
    else if r.max_order_qty < qty then false
    else if 0 < r.min_order_amt ∧ qty * price < r.min_order_amt then false
    else if 0 < r.max_order_amt ∧ r.max_order_amt < qty * price then false
    else if price < r.min_price then false
    else if r.max_price < price then false
    else true

/-- One entry of `self.pending_limit_orders` (keyed by order id).  Of the
stored decision dict only the two fields later read back
(`stop_loss`, `take_profit`) are kept. -/
structure PendingOrder where
  symbol : String
  createTime : ℚ
  side : String
  price : ℚ
  qty : ℚ
  decisionStopLoss : ℚ
  decisionTakeProfit : List ℚ
  aiSymbol : String
  deriving DecidableEq, Repr

/-- The mutable trading-system state touched by the order/position
lifecycle.  Counters, journal ids and log-only fields that no claim reads
are omitted.  `pending` is an insertion-ordered association list, mirroring
a Python dict. -/
structure SysState where
  currentPosition : Option String
  currentSymbol : Option String
  entryPrice : ℚ
  positionEntryTime : Option ℚ
  pending : List (String × PendingOrder)
  totalTrades : ℕ
  successfulTrades : ℕ
  failedTrades : ℕ
  deriving DecidableEq, Repr

/-- An exchange call emitted by the engine (the write calls of the wire
protocol that the claims talk about). -/
inductive Effect where
  | cancelOrder (symbol orderId : String)
  | placeOrder (symbol side orderType : String) (qty : ℚ)
      (price stopLoss takeProfit : Option ℚ) (reduceOnly : Bool)
  | setTradingStop (symbol : String) (stopLoss : ℚ)
  deriving DecidableEq, Repr

/-- A position row as returned by the exchange `get_positions` call. -/
structure ExchangePosition where
  symbol : String
  side : String
  size : ℚ
  avgPrice : ℚ
  deriving DecidableEq, Repr

/-- The state synchronisation performed by `_get_position_info`
(bybit_live_trading_system.py:2014-2041): a falsy positions response clears
the mirrored position fields; otherwise the first row with positive size is
copied into them; if no row has positive size the fields are left alone. -/
def syncPosition (st : SysState) (positions : Option (List ExchangePosition)) :
    SysState :=
  match positions with
  | some (p :: ps) =>
    (match (p :: ps).find? (fun q => decide (0 < q.size)) with
     | some q =>
       { st with currentPosition := some q.side,
                 currentSymbol := some (q.symbol ++ "_PERPETUAL"),
                 entryPrice := q.avgPrice }
     | none => st)
  | _ => { st with currentPosition := none, currentSymbol := none,
                   entryPrice := 0 }

/-- Environment consumed by one `_open_position` call: the exchange/network
responses it would observe. -/
structure OpenEnv where
  tickerOk : Bool
  currentPrice : ℚ
  positions : Option (List ExchangePosition)
  balance : ℚ
  minBalance : ℚ
  rules : Option TradingRules
  orderSucceeds : Bool
  newOrderId : String
  now : ℚ
  deriving Repr

/-- `symbol.replace('_PERPETUAL', '')`: converts an AI-format symbol to the
exchange symbol.  The marker occurs only as a suffix in the symbols the
system builds, so the replacement is suffix stripping. -/
def stripPerpetual (s : String) : String :=
  if s.data.reverse.take 10 = "_PERPETUAL".data.reverse
  then ⟨(s.data.reverse.drop 10).reverse⟩
  else s

/-- The order price chosen by `_open_position`: the ticker price for a market
order (or when no entry price was given), the requested entry price for a
limit order. -/
def orderPriceOf (env : OpenEnv) (orderType : String) (entryPrice : ℚ) : ℚ :=
  if orderType = "Market" ∨ entryPrice = 0 then env.currentPrice else entryPrice

/-- The final order type chosen by `_open_position`; anything other than
`"Market"` with a non-zero entry price becomes a limit order. -/
def finalOrderTypeOf (orderType : String) (entryPrice : ℚ) : String :=
  if orderType = "Market" ∨ entryPrice = 0 then "Market" else "Limit"

/-- The `take_profit` order field attached by `_open_position`: the first
take-profit level, formatted, when present and positive. -/
def tpFieldOf (rules : Option TradingRules) (tp : List ℚ) : Option ℚ :=
  match tp with
  | [] => none
  | h :: _ => if 0 < h then some (formatPriceOpt rules h) else none

/-- The `take_profit` order field attached by `_modify_limit_order_price`:
the first stored take-profit level, formatted, when the list is non-empty
(no positivity test there). -/
def tpFieldOfModify (rules : Option TradingRules) (tp : List ℚ) : Option ℚ :=
  match tp with
  | [] => none
  | h :: _ => some (formatPriceOpt rules h)

/-- `_open_position` (bybit_live_trading_system.py:2362-2552) as a state
transition plus the exchange calls it makes.  Journal records, pnl logging
and the trade-id bookkeeping are outside the modelled state. -/
def openPosition (st : SysState) (env : OpenEnv) (action symbol : String)
    (positionSizePct leverage : ℚ) (orderType : String)
    (entryPrice stopLoss : ℚ) (takeProfit : List ℚ) : SysState × List Effect :=
  let bybitSymbol := stripPerpetual symbol
  if ¬ env.tickerOk then (st, [])
  else
    let st1 := syncPosition st env.positions
    if env.balance < env.minBalance then (st1, [])
    else
      let positionValue := env.balance * positionSizePct * leverage
      let qty := formatQuantityOpt env.rules (positionValue / env.currentPrice)
      if ¬ validateOrder env.rules qty env.currentPrice then (st1, [])
      else
        let side := if action = "LONG" then "Buy" else "Sell"
        let orderPrice := orderPriceOf env orderType entryPrice
        let finalType := finalOrderTypeOf orderType entryPrice
        if ¬ validateStopLossTakeProfit action orderPrice stopLoss takeProfit
        then (st1, [])
        else
          let priceField : Option ℚ :=
            if finalType = "Limit" then some (formatPriceOpt env.rules orderPrice)
            else none
          let slField : Option ℚ :=
            if 0 < stopLoss then some (formatPriceOpt env.rules stopLoss) else none
          let tpField : Option ℚ := tpFieldOf env.rules takeProfit
          let eff := Effect.placeOrder bybitSymbol side finalType qty
            priceField slField tpField false
          if env.orderSucceeds then
            let st2 := { st1 with totalTrades := st1.totalTrades + 1,
                                  successfulTrades := st1.successfulTrades + 1 }
            let st3 :=
              if finalType = "Limit" then
                { st2 with pending := st2.pending ++ [(env.newOrderId,
                    { symbol := bybitSymbol, createTime := env.now, side := side,
                      price := orderPrice, qty := qty,
                      decisionStopLoss := stopLoss,
                      decisionTakeProfit := takeProfit, aiSymbol := symbol })] }
              else st2
            ({ st3 with currentPosition := some side,
                        currentSymbol := some symbol,
                        entryPrice := orderPrice,
                        positionEntryTime := some env.now }, [eff])
          else
            ({ st1 with failedTrades := st1.failedTrades + 1 }, [eff])

/-- Environment consumed by one `_close_position` call. -/
structure CloseEnv where
  positions : Option (List ExchangePosition)
  orderSucceeds : Bool
  deriving Repr

/-- `_close_position` (bybit_live_trading_system.py:2554-2702).  The close
reason is used only for logging and the journal record; pnl computation,
post-close kline fetching and the drawdown analysis touch no modelled state.
Notably, no branch of the source records a stop-loss event with the
protection guard. -/
def closePosition (st : SysState) (env : CloseEnv) (reason : String) :
    SysState × List Effect :=
  match st.currentPosition, st.currentSymbol with
  | some side, some sym =>
    let bybitSymbol := stripPerpetual sym
    (match env.positions with
     | none => ({ st with currentPosition := none, currentSymbol := none }, [])
     | some [] => ({ st with currentPosition := none, currentSymbol := none }, [])
     | some (p :: _) =>
       if p.size = 0 then
         ({ st with currentPosition := none, currentSymbol := none }, [])
       else
         let closeSide := if side = "Buy" then "Sell" else "Buy"
         let eff := Effect.placeOrder bybitSymbol closeSide "Market" p.size
           none none none true
         if env.orderSucceeds then
           ({ st with totalTrades := st.totalTrades + 1,
                      successfulTrades := st.successfulTrades + 1,
                      currentPosition := none, currentSymbol := none,
                      entryPrice := 0, positionEntryTime := none }, [eff])
         else
           ({ st with failedTrades := st.failedTrades + 1 }, [eff]))
  | _, _ => (st, [])

/-- The configuration values read by `_execute_decision`, with the source
defaults (`min_position_pct` 0.03, `max_position_pct` 0.30,
`max_leverage` 15). -/
structure Config where
  minPositionPct : ℚ
  maxPositionPct : ℚ
  maxLeverage : ℚ
  deriving Repr

def defaultConfig : Config :=
  { minPositionPct := 3/100, maxPositionPct := 30/100, maxLeverage := 15 }

/-- Position-size clamp of `_execute_decision`
(bybit_live_trading_system.py:2059-2062). -/
def clampPositionSize (cfg : Config) (x : ℚ) : ℚ :=
  min (max x cfg.minPositionPct) cfg.maxPositionPct

/-- Leverage clamp of `_execute_decision`
(bybit_live_trading_system.py:2064-2067). -/
def clampLeverage (cfg : Config) (x : ℚ) : ℚ :=
  min (max x 1) cfg.maxLeverage

/-- The decision payload consumed by `_execute_decision`, with defaults
already substituted by the dict reads. -/
structure Decision where
  action : String
  targetSymbol : String
  positionSize : ℚ
  leverage : ℚ
  orderType : String
  entryPrice : ℚ
  stopLoss : ℚ
  takeProfit : List ℚ
  deriving Repr

/-- `_execute_decision` (bybit_live_trading_system.py:2045-2154).  HOLD is a
no-op; CLOSE closes when holding; LONG/SHORT is skipped entirely when a
pending limit order with the same symbol and side exists, otherwise an
opposite/different position is closed first (switch) and the open runs with
the clamped size and leverage.  Note the source compares the held side
against the literal `'Short'` although positions store `'Sell'`. -/
def executeDecision (st : SysState) (cfg : Config) (cenv : CloseEnv)
    (oenv : OpenEnv) (d : Decision) : SysState × List Effect :=
  let positionSizePct := clampPositionSize cfg d.positionSize
  let leverage := clampLeverage cfg d.leverage
  if d.action = "HOLD" then (st, [])
  else if d.action = "CLOSE" then
    match st.currentPosition with
    | some _ => closePosition st cenv "AI close"
    | none => (st, [])
  else if d.action = "LONG" ∨ d.action = "SHORT" then
    let bybitSymbol := stripPerpetual d.targetSymbol
    let targetSide := if d.action = "LONG" then "Buy" else "Sell"
    if st.pending.any
        (fun e => decide (e.2.symbol = bybitSymbol ∧ e.2.side = targetSide))
    then (st, [])
    else
      let step1 : SysState × List Effect :=
        match st.currentPosition with
        | some curPos =>
          if st.currentSymbol ≠ some d.targetSymbol ∨
             (st.currentSymbol = some d.targetSymbol ∧
               ((d.action = "LONG" ∧ curPos = "Short") ∨
                (d.action = "SHORT" ∧ curPos = "Buy")))
          then closePosition st cenv "switch"
          else (st, [])
        | none => (st, [])
      let step2 := openPosition step1.1 oenv d.action d.targetSymbol
        positionSizePct leverage d.orderType d.entryPrice d.stopLoss d.takeProfit
      (step2.1, step1.2 ++ step2.2)
  else (st, [])

/-- The stop-update decision of `_check_and_update_trailing_stop`
(bybit_live_trading_system.py:2238-2276): `some s` means the source sets
`new_stop_loss := s` with `should_update = True`.  `curStop` is the stop the
exchange currently reports (`position.stopLoss`, `0` when unset). -/
def trailingStopCandidate (distMult trigMult : ℚ) (side : String)
    (entry price atr curStop : ℚ) : Option ℚ :=
  if side = "Buy" then
    if atr * trigMult ≤ price - entry then
      let potential := price - atr * distMult
      if 0 < curStop then
        (if curStop < potential then some potential else none)
      else some (max potential entry)
    else none
  else if side = "Sell" then
    if atr * trigMult ≤ entry - price then
      let potential := price + atr * distMult
      if 0 < curStop then
        (if potential < curStop then some potential else none)
      else some (min potential entry)
    else none
  else none

/-- One trailing-stop check including the final
`should_update and new_stop_loss > 0` gate before the stop is pushed
(bybit_live_trading_system.py:2279-2298).  The pushed price is tracked
pre-formatting; tick rounding of the wire value is the protocol formatting
layer modelled by `formatPrice`. -/
def trailingStopStep (distMult trigMult : ℚ) (side : String)
    (entry price atr curStop : ℚ) : Option ℚ :=
  match trailingStopCandidate distMult trigMult side entry price atr curStop with
  | some s => if 0 < s then some s else none
  | none => none

/-- Iterated trailing-stop checks over a sequence of (price, ATR) samples:
the list of stop prices pushed to the exchange, each successful push
becoming the stop the next check reads back. -/
def trailingStopRun (distMult trigMult : ℚ) (side : String) (entry : ℚ) :
    ℚ → List (ℚ × ℚ) → List ℚ
  | _, [] => []
  | cur, (p, a) :: rest =>
    match trailingStopStep distMult trigMult side entry p a cur with
    | some s => s :: trailingStopRun distMult trigMult side entry s rest
    | none => trailingStopRun distMult trigMult side entry cur rest

/-- Per-symbol snapshot fields read by the `ExtremeMarketProtection`
detectors (ai_prompts_manager.py): the latest 15m candle, its volume and
ATR, the 4h baseline volume and ATR, and the candle timestamp's minute
(`none` when the snapshot carries no timestamp). -/
structure MarketData where
  open15 : ℚ
  close15 : ℚ
  low15 : ℚ
  volume15 : ℚ
  atr15 : ℚ
  volume4h : ℚ
  atr4h : ℚ
  minute : Option ℕ
  deriving DecidableEq, Repr

/-- `check_flash_crash` (ai_prompts_manager.py:766-791): single-candle drop
above 8%, or lower-wick retracement above 8% × 1.5 = 12%. -/
def checkFlashCrash (m : MarketData) : Bool :=
  if m.open15 ≤ 0 then false
  else
    let candleDrop := (m.open15 - m.close15) / m.open15
    let wickDrop := (m.open15 - m.low15) / m.open15
    if 8/100 < candleDrop then true
    else if 8/100 * (3/2) < wickDrop then true
    else false

/-- `check_liquidity_crisis` (ai_prompts_manager.py:793-831): expected 15m
volume is the 4h volume divided by 16; below 30% of expected triggers,
unless the candle just opened (first 5 minutes) or volume is below 10% of
expected (treated as missing data). -/
def checkLiquidityCrisis (m : MarketData) : Bool :=
  if m.volume4h ≤ 0 then false
  else
    let newCandle : Bool :=
      match m.minute with
      | some minute => decide (minute % 15 < 5)
      | none => false
    if newCandle then false
    else
      let expected := m.volume4h / 16
      if m.volume15 < expected * (1 - 7/10) then
        if m.volume15 < expected * (1/10) then false else true
      else false

/-- `check_volatility_surge` (ai_prompts_manager.py:833-845): 15m ATR above
1.5 × 4h ATR. -/
def checkVolatilitySurge (m : MarketData) : Bool :=
  decide (0 < m.atr4h ∧ m.atr4h * (3/2) < m.atr15)

/-- Number of tracked symbols whose latest 15m candle dropped more than 5%
open-to-close (`check_multi_asset_crash` loop, ai_prompts_manager.py:852-865;
symbols with non-positive open are skipped). -/
def crashCount (all : List (String × MarketData)) : ℕ :=
  (all.filter (fun e =>
    decide (0 < e.2.open15) &&
    decide (5/100 < (e.2.open15 - e.2.close15) / e.2.open15))).length

/-- `check_multi_asset_crash` (ai_prompts_manager.py:847-870): at least two
qualifying symbols trigger. -/
def checkMultiAssetCrash (all : List (String × MarketData)) : Bool :=
  decide (2 ≤ crashCount all)

/-- `check_consecutive_stops` (ai_prompts_manager.py:872-885): prune the
rolling stop-loss window to the trailing 4 hours, trigger on ≥ 3 remaining
events.  Returns the pruned window (the new `recent_stop_losses`) and the
verdict.  Timestamps are rationals measured in hours. -/
def checkConsecutiveStops (recentStops : List ℚ) (now : ℚ) : List ℚ × Bool :=
  let pruned := recentStops.filter (fun t => decide (now - 4 < t))
  (pruned, decide (3 ≤ pruned.length))

/-- `record_stop_loss` (ai_prompts_manager.py:887-889). -/
def recordStopLoss (recentStops : List ℚ) (t : ℚ) : List ℚ :=
  recentStops ++ [t]

/-- Daily-baseline state of `ExtremeMarketProtection`
(`daily_start_balance`, `current_day`); days are modelled as integers. -/
structure DailyState where
  dailyStartBalance : Option ℚ
  currentDay : Option ℤ
  deriving DecidableEq, Repr

/-- `check_max_daily_loss` (ai_prompts_manager.py:891-909): on a new day the
baseline resets and the check passes; otherwise trigger when the drawdown
from the day's opening balance exceeds 15%. -/
def checkMaxDailyLoss (s : DailyState) (balance : ℚ) (today : ℤ) :
    DailyState × Bool :=
  if s.currentDay ≠ some today then
    ({ dailyStartBalance := some balance, currentDay := some today }, false)
  else
    match s.dailyStartBalance with
    | none => ({ s with dailyStartBalance := some balance }, false)
    | some start => (s, decide (15 < (start - balance) / start * 100))

/-- Which detector produced a protection reason; the source's reason strings
carry a distinct marker per detector. -/
inductive ReasonTag where
  | multiAssetCrash
  | flashCrash
  | liquidityCrisis
  | volatilitySurge
  | consecutiveStops
  deriving DecidableEq, Repr

/-- Dict lookup of a tracked symbol's snapshot. -/
def lookupMarketData (all : List (String × MarketData)) (sym : String) :
    Option MarketData :=
  (all.find? (fun e => decide (e.1 = sym))).map (·.2)

/-- The held-symbol detectors of `comprehensive_check` (steps 2-4,
ai_prompts_manager.py:934-966) applied to a looked-up snapshot. -/
def heldSymbolReasonsData : Option MarketData → List ReasonTag
  | some md =>
    (if checkFlashCrash md then [.flashCrash] else []) ++
    (if checkLiquidityCrisis md then [.liquidityCrisis] else []) ++
    (if checkVolatilitySurge md then [.volatilitySurge] else [])
  | none => []

/-- The held-symbol detectors of `comprehensive_check`: run only when a
position is open and the held symbol is among the tracked snapshots. -/
def heldSymbolReasons (all : List (String × MarketData))
    (hasPosition : Bool) : Option String → List ReasonTag
  | some sym =>
    if hasPosition then heldSymbolReasonsData (lookupMarketData all sym)
    else []
  | none => []

/-- `comprehensive_check` (ai_prompts_manager.py:911-981): multi-asset crash
first, then (only while holding a tracked symbol) flash crash, liquidity
crisis and volatility surge on the held symbol, then consecutive stops;
protect iff any reason accumulated.  The balance argument is received but
never read by the source.  Returns the pruned stop-loss window, the verdict
and the reason list. -/
def comprehensiveCheck (recentStops : List ℚ)
    (all : List (String × MarketData)) (balance : ℚ) (now : ℚ)
    (hasPosition : Bool) (currentSymbol : Option String) :
    List ℚ × Bool × List ReasonTag :=
  let r1 : List ReasonTag :=
    if checkMultiAssetCrash all then [.multiAssetCrash] else []
  let r2 : List ReasonTag := heldSymbolReasons all hasPosition currentSymbol
  let consec := checkConsecutiveStops recentStops now
  let r3 : List ReasonTag := if consec.2 then [.consecutiveStops] else []
  let reasons := r1 ++ r2 ++ r3
  (consec.1, decide (reasons ≠ []), reasons)

/-- Rolling risk state of `ExtremeMarketProtection` as a whole. -/
structure ProtectionState where
  recentStopLosses : List ℚ
  daily : DailyState
  deriving DecidableEq, Repr

/-- The protection branch of one `_trading_loop` iteration
(bybit_live_trading_system.py:1494-1522): the loop consults only
`comprehensive_check`; the returned flag is the sole halt path (emergency
close plus a 10-minute pause).  `check_max_daily_loss` has no caller
anywhere in the repository, so the daily-baseline state passes through
untouched and never halts trading. -/
def tradingIterationProtection (prot : ProtectionState)
    (all : List (String × MarketData)) (balance : ℚ) (now : ℚ)
    (st : SysState) : ProtectionState × Bool :=
  let r := comprehensiveCheck prot.recentStopLosses all balance now
    st.currentPosition.isSome st.currentSymbol
  ({ prot with recentStopLosses := r.1 }, r.2.1)

/-- `_close_position` is the only full-close path, and no branch of it calls
`record_stop_loss` (which has no caller in the repository); the protection
guard's state therefore flows through a close unchanged, whatever the close
reason says. -/
def closePositionSystem (st : SysState) (prot : ProtectionState)
    (env : CloseEnv) (reason : String) :
    (SysState × ProtectionState) × List Effect :=
  let r := closePosition st env reason
  ((r.1, prot), r.2)

/-- The answer of the limit-order re-evaluation policy
(`_ask_ai_about_limit_order`). -/
inductive LimitAction where
  | continueWait
  | modify (newPrice : Option ℚ)
  | cancel
  | cancelAndMarket
  deriving DecidableEq, Repr

/-- Environment consumed while servicing one pending limit order. -/
structure PendingEnv where
  now : ℚ
  limitOrderTimeout : ℚ
  orderStatus : Option String
  tickerOk : Bool
  tickerPrice : ℚ
  rules : Option TradingRules
  cancelSucceeds : Bool
  statusAfterCancelFail : Option String
  placeSucceeds : Bool
  newOrderId : String
  deriving Repr

/-- Remove a pending order from the monitored set (`dict.pop`). -/
def removePending (st : SysState) (oid : String) : SysState :=
  { st with pending := st.pending.filter (fun e => decide (e.1 ≠ oid)) }

/-- `_modify_limit_order_price` (bybit_live_trading_system.py:1894-1981):
cancel the old order, place a fresh limit order at the suggested price (or
at market ± 2% when none was suggested), and re-register the monitored
order under the new exchange id with the age timer reset to now.  Returns
the state, the accepted new price, and the exchange calls made. -/
def modifyLimitOrderPrice (st : SysState) (env : PendingEnv) (oid : String)
    (info : PendingOrder) (suggested : Option ℚ) :
    SysState × Option ℚ × List Effect :=
  if ¬ env.tickerOk then (st, none, [])
  else
    let autoPrice := if info.side = "Buy" then env.tickerPrice * (98/100)
                     else env.tickerPrice * (102/100)
    let newPrice :=
      match suggested with
      | some p => if p = 0 then autoPrice else p
      | none => autoPrice
    let cancelEff := Effect.cancelOrder info.symbol oid
    if ¬ env.cancelSucceeds ∧ env.statusAfterCancelFail = some "Filled" then
      (st, none, [cancelEff])
    else
      let slField : Option ℚ :=
        if info.decisionStopLoss ≠ 0 then
          some (formatPriceOpt env.rules info.decisionStopLoss)
        else none
      let tpField : Option ℚ := tpFieldOfModify env.rules info.decisionTakeProfit
      let placeEff := Effect.placeOrder info.symbol info.side "Limit" info.qty
        (some (formatPriceOpt env.rules newPrice)) slField tpField false
      if env.placeSucceeds then
        ({ st with pending := (st.pending.filter (fun e => decide (e.1 ≠ oid))) ++
             [(env.newOrderId,
               { info with price := newPrice, createTime := env.now })] },
         some newPrice, [cancelEff, placeEff])
      else (st, none, [cancelEff, placeEff])

/-- `_cancel_and_place_market_order` (bybit_live_trading_system.py:1864-1892):
cancel, then on success submit an equivalent market order (same symbol,
side and quantity). -/
def cancelAndPlaceMarket (env : PendingEnv) (oid : String)
    (info : PendingOrder) : List Effect :=
  if ¬ env.cancelSucceeds then [Effect.cancelOrder info.symbol oid]
  else [Effect.cancelOrder info.symbol oid,
        Effect.placeOrder info.symbol info.side "Market" info.qty
          none none none false]

/-- Servicing of one monitored limit order inside
`_check_pending_limit_orders` (bybit_live_trading_system.py:1552-1622).
Filled/cancelled/rejected orders leave the monitored set; a still-open order
past the timeout is resolved per the policy answer.  After a successful
modify the source also assigns into the dict object it already popped; that
write is dead and has no state effect. -/
def checkPendingOrder (st : SysState) (env : PendingEnv)
    (aiAction : LimitAction) (oid : String) : SysState × List Effect :=
  match (st.pending.find? (fun e => decide (e.1 = oid))).map (·.2) with
  | none => (st, [])
  | some info =>
    let waitTime := env.now - info.createTime
    match env.orderStatus with
    | none => (st, [])
    | some status =>
      if status = "Filled" ∨ status = "Cancelled" ∨ status = "Rejected" then
        (removePending st oid, [])
      else if env.limitOrderTimeout ≤ waitTime ∧
          (status = "New" ∨ status = "PartiallyFilled") then
        match aiAction with
        | .cancelAndMarket =>
          (removePending st oid, cancelAndPlaceMarket env oid info)
        | .modify suggested =>
          let r := modifyLimitOrderPrice st env oid info suggested
          (r.1, r.2.2)
        | .cancel => (removePending st oid, [Effect.cancelOrder info.symbol oid])
        | .continueWait => (st, [])
      else (st, [])

theorem validateStopLossTakeProfit_long_reject (entry stop : ℚ) (tp : List ℚ)
    (h0 : 0 < stop)
    (h : entry ≤ stop ∨ |entry - stop| / entry * 100 < 3/10 ∨
         20 < |entry - stop| / entry * 100) :
    validateStopLossTakeProfit "LONG" entry stop tp = false := by
  unfold validateStopLossTakeProfit
  rw [if_pos rfl, if_pos h0]
  by_cases h1 : entry ≤ stop
  · rw [if_pos h1]
  · rw [if_neg h1]
    rcases h with h | h | h
    · exact absurd h h1
    · rw [if_pos h]
    · rw [if_neg (by linarith), if_pos h]

theorem validateStopLossTakeProfit_short_reject (entry stop : ℚ) (tp : List ℚ)
    (h0 : 0 < stop)
    (h : stop ≤ entry ∨ |stop - entry| / entry * 100 < 3/10 ∨
         20 < |stop - entry| / entry * 100) :
    validateStopLossTakeProfit "SHORT" entry stop tp = false := by
  unfold validateStopLossTakeProfit
  rw [if_neg (by decide), if_pos rfl, if_pos h0]
  by_cases h1 : stop ≤ entry
  · rw [if_pos h1]
  · rw [if_neg h1]
    rcases h with h | h | h
    · exact absurd h h1
    · rw [if_pos h]
    · rw [if_neg (by linarith), if_pos h]

/-- C1: an open attempt whose decision carries a positive stop-loss on the
wrong side of the order price (long: stop at or above; short: stop at or
below), or at a distance below 0.3% or above 20% of the order price, fails
validation: `_open_position` makes no exchange call and leaves the position
and the pending-order set unchanged (assuming the mirrored position fields
agree with what the exchange reports, which the position-info sync
re-establishes). -/
theorem stop_geometry_rejected_no_order (st : SysState) (env : OpenEnv)
    (action symbol : String) (psp lev : ℚ) (orderType : String)
    (entryPrice stopLoss : ℚ) (takeProfit : List ℚ)
    (hsync : syncPosition st env.positions = st)
    (hprice : 0 < orderPriceOf env orderType entryPrice)
    (h : (action = "LONG" ∧ 0 < stopLoss ∧
           (orderPriceOf env orderType entryPrice ≤ stopLoss ∨
            |orderPriceOf env orderType entryPrice - stopLoss| /
              orderPriceOf env orderType entryPrice * 100 < 3/10 ∨
            20 < |orderPriceOf env orderType entryPrice - stopLoss| /
              orderPriceOf env orderType entryPrice * 100)) ∨
         (action = "SHORT" ∧ 0 < stopLoss ∧
           (stopLoss ≤ orderPriceOf env orderType entryPrice ∨
            |stopLoss - orderPriceOf env orderType entryPrice| /
              orderPriceOf env orderType entryPrice * 100 < 3/10 ∨
            20 < |stopLoss - orderPriceOf env orderType entryPrice| /
              orderPriceOf env orderType entryPrice * 100))) :
    openPosition st env action symbol psp lev orderType entryPrice stopLoss
      takeProfit = (st, []) := by
  have hv : validateStopLossTakeProfit action
      (orderPriceOf env orderType entryPrice) stopLoss takeProfit = false := by
    rcases h with ⟨ha, h0, h⟩ | ⟨ha, h0, h⟩
    · rw [ha]; exact validateStopLossTakeProfit_long_reject _ _ _ h0 h
    · rw [ha]; exact validateStopLossTakeProfit_short_reject _ _ _ h0 h
  simp only [openPosition]
  rw [hsync]
  set q := validateOrder env.rules
    (formatQuantityOpt env.rules
      (env.balance * psp * lev / env.currentPrice)) env.currentPrice with hq
  rw [hv]
  split_ifs <;> first | rfl | exact (by assumption : False).elim

/-- Witness for `stop_geometry_rejected_no_order`: a long whose stop sits
above the market price is rejected with no state change. -/
theorem stop_geometry_rejected_no_order_witness :
    syncPosition ⟨none, none, 0, none, [], 0, 0, 0⟩ none =
      ⟨none, none, 0, none, [], 0, 0, 0⟩ ∧
    openPosition ⟨none, none, 0, none, [], 0, 0, 0⟩
      ⟨true, 100, none, 1000, 10, none, true, "oid1", 0⟩
      "LONG" "BTCUSDT_PERPETUAL" (1/10) 10 "Market" 0 150 [200] =
      (⟨none, none, 0, none, [], 0, 0, 0⟩, []) := by
  refine ⟨rfl, ?_⟩
  exact stop_geometry_rejected_no_order _ _ _ _ _ _ _ _ _ _ rfl
    (by unfold orderPriceOf; norm_num)
    (Or.inl ⟨rfl, by norm_num, Or.inl (by unfold orderPriceOf; norm_num)⟩)

theorem openPosition_effects (st : SysState) (env : OpenEnv)
    (action symbol : String) (psp lev : ℚ) (orderType : String)
    (entryPrice stopLoss : ℚ) (takeProfit : List ℚ)
    (h1 : env.tickerOk = true)
    (h2 : ¬ env.balance < env.minBalance)
    (h3 : validateOrder env.rules
      (formatQuantityOpt env.rules (env.balance * psp * lev / env.currentPrice))
      env.currentPrice = true)
    (h4 : validateStopLossTakeProfit action (orderPriceOf env orderType entryPrice)
      stopLoss takeProfit = true) :
    (openPosition st env action symbol psp lev orderType entryPrice stopLoss
      takeProfit).2 =
    [Effect.placeOrder (stripPerpetual symbol)
      (if action = "LONG" then "Buy" else "Sell")
      (finalOrderTypeOf orderType entryPrice)
      (formatQuantityOpt env.rules (env.balance * psp * lev / env.currentPrice))
      (if finalOrderTypeOf orderType entryPrice = "Limit" then
        some (formatPriceOpt env.rules (orderPriceOf env orderType entryPrice))
       else none)
      (if 0 < stopLoss then some (formatPriceOpt env.rules stopLoss) else none)
      (tpFieldOf env.rules takeProfit)
      false] := by
  simp only [openPosition, h1, h3, h4]
  rw [if_neg (by simp), if_neg h2]
  split_ifs <;>
    first
      | rfl
      | exact absurd trivial (by assumption)

/-- C2: an executed LONG/SHORT decision submits an order whose quantity is
`balance × clamp(position_size, 0.03, 0.30) × clamp(leverage, 1, 15)` —
the notional — divided by the current reference price and then formatted per
the instrument rules; with balance 1000, size fraction 0.10, leverage 10 and
price 50000 the notional is 1000 and the pre-rounding quantity 0.02. -/
theorem trade_sizing_formula (st : SysState) (cenv : CloseEnv) (oenv : OpenEnv)
    (d : Decision)
    (ha : d.action = "LONG" ∨ d.action = "SHORT")
    (hnodup : st.pending.any (fun e =>
      decide (e.2.symbol = stripPerpetual d.targetSymbol ∧
        e.2.side = (if d.action = "LONG" then "Buy" else "Sell"))) = false)
    (hpos : st.currentPosition = none)
    (h1 : oenv.tickerOk = true)
    (h2 : ¬ oenv.balance < oenv.minBalance)
    (h3 : validateOrder oenv.rules
      (formatQuantityOpt oenv.rules
        (oenv.balance * clampPositionSize defaultConfig d.positionSize *
          clampLeverage defaultConfig d.leverage / oenv.currentPrice))
      oenv.currentPrice = true)
    (h4 : validateStopLossTakeProfit d.action
      (orderPriceOf oenv d.orderType d.entryPrice) d.stopLoss
      d.takeProfit = true) :
    (executeDecision st defaultConfig cenv oenv d).2 =
    [Effect.placeOrder (stripPerpetual d.targetSymbol)
      (if d.action = "LONG" then "Buy" else "Sell")
      (finalOrderTypeOf d.orderType d.entryPrice)
      (formatQuantityOpt oenv.rules
        (oenv.balance * clampPositionSize defaultConfig d.positionSize *
          clampLeverage defaultConfig d.leverage / oenv.currentPrice))
      (if finalOrderTypeOf d.orderType d.entryPrice = "Limit" then
        some (formatPriceOpt oenv.rules (orderPriceOf oenv d.orderType d.entryPrice))
       else none)
      (if 0 < d.stopLoss then some (formatPriceOpt oenv.rules d.stopLoss) else none)
      (tpFieldOf oenv.rules d.takeProfit)
      false] ∧
    1000 * clampPositionSize defaultConfig (1/10) *
      clampLeverage defaultConfig 10 = 1000 ∧
    1000 * clampPositionSize defaultConfig (1/10) *
      clampLeverage defaultConfig 10 / 50000 = 1/50 := by
  refine ⟨?_, by norm_num [clampPositionSize, clampLeverage, defaultConfig],
    by norm_num [clampPositionSize, clampLeverage, defaultConfig]⟩
  have heff := openPosition_effects st oenv d.action d.targetSymbol
    (clampPositionSize defaultConfig d.positionSize)
    (clampLeverage defaultConfig d.leverage)
    d.orderType d.entryPrice d.stopLoss d.takeProfit h1 h2 h3 h4
  rcases ha with ha | ha <;>
  · simp only [executeDecision, hpos]
    rw [ha] at hnodup heff ⊢
    rw [if_neg (by decide), if_neg (by decide), if_pos (by simp), hnodup]
    simpa using heff

/-- Witness for `trade_sizing_formula`: the spec's example scenario, with an
instrument whose quantity step is 0.01. -/
theorem trade_sizing_formula_witness :
    (executeDecision ⟨none, none, 0, none, [], 0, 0, 0⟩ defaultConfig
      ⟨none, true⟩
      ⟨true, 50000, none, 1000, 10,
        some ⟨1/10, 1/100, 1000000, 1/100, 1/1000, 100, 0, 0, true, true⟩,
        true, "o1", 0⟩
      ⟨"LONG", "BTCUSDT_PERPETUAL", 1/10, 10, "Market", 0, 49000, [52000]⟩).2 =
    [Effect.placeOrder "BTCUSDT" "Buy" "Market" (1/50) none
      (some 49000) (some 52000) false] ∧
    formatQuantityOpt
      (some ⟨1/10, 1/100, 1000000, 1/100, 1/1000, 100, 0, 0, true, true⟩)
      (1000 * clampPositionSize defaultConfig (1/10) *
        clampLeverage defaultConfig 10 / 50000) = 1/50 := by
  have hqty : formatQuantityOpt
      (some ⟨1/10, 1/100, 1000000, 1/100, 1/1000, 100, 0, 0, true, true⟩)
      ((1000 : ℚ) * clampPositionSize defaultConfig (1/10) *
        clampLeverage defaultConfig 10 / 50000) = 1/50 := by
    norm_num [formatQuantityOpt, formatQuantity, roundToStep, pyRound, round_eq,
      clampPositionSize, clampLeverage, defaultConfig, max_def, min_def]
  have hp49 : formatPriceOpt
      (some ⟨1/10, 1/100, 1000000, 1/100, 1/1000, 100, 0, 0, true, true⟩)
      49000 = 49000 := by
    norm_num [formatPriceOpt, formatPrice, roundToStep, pyRound, round_eq]
  have hp52 : formatPriceOpt
      (some ⟨1/10, 1/100, 1000000, 1/100, 1/1000, 100, 0, 0, true, true⟩)
      52000 = 52000 := by
    norm_num [formatPriceOpt, formatPrice, roundToStep, pyRound, round_eq]
  have hsym : stripPerpetual "BTCUSDT_PERPETUAL" = "BTCUSDT" := by decide
  have h := trade_sizing_formula ⟨none, none, 0, none, [], 0, 0, 0⟩
    ⟨none, true⟩
    ⟨true, 50000, none, 1000, 10,
      some ⟨1/10, 1/100, 1000000, 1/100, 1/1000, 100, 0, 0, true, true⟩,
      true, "o1", 0⟩
    ⟨"LONG", "BTCUSDT_PERPETUAL", 1/10, 10, "Market", 0, 49000, [52000]⟩
    (Or.inl rfl) rfl rfl rfl (by norm_num)
    (by
      norm_num [validateOrder, formatQuantityOpt, formatQuantity, roundToStep,
        pyRound, round_eq, clampPositionSize, clampLeverage, defaultConfig,
        max_def, min_def])
    (by
      norm_num [validateStopLossTakeProfit, orderPriceOf, validTakeProfitLong])
  refine ⟨?_, hqty⟩
  rw [h.1]
  norm_num [hsym, hqty, hp49, hp52, finalOrderTypeOf, orderPriceOf, tpFieldOf]
  intro hC
  exact absurd hC (by decide)

/-- C9: a LONG/SHORT decision for which a pending limit order with the same
symbol and side already exists is skipped entirely: `_execute_decision`
returns without closing, without submitting anything, and with the position
state and the pending-order set untouched. -/
theorem duplicate_pending_order_skips (st : SysState) (cfg : Config)
    (cenv : CloseEnv) (oenv : OpenEnv) (d : Decision)
    (ha : d.action = "LONG" ∨ d.action = "SHORT")
    (hdup : st.pending.any (fun e =>
      decide (e.2.symbol = stripPerpetual d.targetSymbol ∧
        e.2.side = (if d.action = "LONG" then "Buy" else "Sell"))) = true) :
    executeDecision st cfg cenv oenv d = (st, []) := by
  rcases ha with ha | ha <;>
  · simp only [executeDecision]
    rw [ha] at hdup ⊢
    rw [if_neg (by decide), if_neg (by decide), if_pos (by simp), hdup,
      if_pos rfl]

/-- Witness for `duplicate_pending_order_skips`: a LONG decision finding a
pending buy order on the same symbol changes nothing. -/
theorem duplicate_pending_order_skips_witness :
    executeDecision
      ⟨none, none, 0, none,
        [("o7", ⟨"BTCUSDT", 0, "Buy", 50000, 1/50, 0, [], "BTCUSDT_PERPETUAL"⟩)],
        0, 0, 0⟩
      defaultConfig ⟨none, true⟩
      ⟨true, 50000, none, 1000, 10, none, true, "o8", 0⟩
      ⟨"LONG", "BTCUSDT_PERPETUAL", 1/10, 10, "Market", 0, 49000, [52000]⟩ =
    (⟨none, none, 0, none,
      [("o7", ⟨"BTCUSDT", 0, "Buy", 50000, 1/50, 0, [], "BTCUSDT_PERPETUAL"⟩)],
      0, 0, 0⟩, []) := by
  exact duplicate_pending_order_skips _ _ _ _ _ (Or.inl rfl) (by decide)

theorem trailingStopStep_buy_of_pos {dm tm entry price atr cur : ℚ}
    (hcur : 0 < cur) :
    trailingStopStep dm tm "Buy" entry price atr cur =
      (if atr * tm ≤ price - entry ∧ cur < price - atr * dm
       then some (price - atr * dm) else none) := by
  unfold trailingStopStep trailingStopCandidate
  rw [if_pos rfl, if_pos hcur]
  by_cases h1 : atr * tm ≤ price - entry
  · rw [if_pos h1]
    by_cases h2 : cur < price - atr * dm
    · rw [if_pos h2]
      simp [h1, h2, lt_trans hcur h2]
    · rw [if_neg h2]
      simp [h2]
  · rw [if_neg h1]
    simp [h1]

theorem trailingStopStep_sell_of_pos {dm tm entry price atr cur : ℚ}
    (hcur : 0 < cur) :
    trailingStopStep dm tm "Sell" entry price atr cur =
      (if atr * tm ≤ entry - price ∧ price + atr * dm < cur ∧
          0 < price + atr * dm
       then some (price + atr * dm) else none) := by
  unfold trailingStopStep trailingStopCandidate
  rw [if_neg (by decide), if_pos rfl, if_pos hcur]
  by_cases h1 : atr * tm ≤ entry - price
  · rw [if_pos h1]
    by_cases h2 : price + atr * dm < cur
    · rw [if_pos h2]
      by_cases h3 : 0 < price + atr * dm
      · simp [h1, h2, h3]
      · simp [h1, h2, h3]
    · rw [if_neg h2]
      simp [h2]
  · rw [if_neg h1]
    simp [h1]

theorem trailingStopRun_buy_chain (dm tm entry : ℚ) :
    ∀ (inputs : List (ℚ × ℚ)) (cur : ℚ), 0 < cur →
      List.Chain' (· ≤ ·) (cur :: trailingStopRun dm tm "Buy" entry cur inputs)
  | [], _, _ => by simp [trailingStopRun]
  | (p, a) :: rest, cur, hcur => by
    rw [trailingStopRun, trailingStopStep_buy_of_pos hcur]
    split_ifs with h1
    · rw [List.chain'_cons]
      exact ⟨le_of_lt h1.2,
        trailingStopRun_buy_chain dm tm entry rest _ (lt_trans hcur h1.2)⟩
    · exact trailingStopRun_buy_chain dm tm entry rest cur hcur

theorem trailingStopRun_sell_chain (dm tm entry : ℚ) :
    ∀ (inputs : List (ℚ × ℚ)) (cur : ℚ), 0 < cur →
      List.Chain' (fun a b => b ≤ a)
        (cur :: trailingStopRun dm tm "Sell" entry cur inputs)
  | [], _, _ => by simp [trailingStopRun]
  | (p, a) :: rest, cur, hcur => by
    rw [trailingStopRun, trailingStopStep_sell_of_pos hcur]
    split_ifs with h1
    · rw [List.chain'_cons]
      exact ⟨le_of_lt h1.2.1,
        trailingStopRun_sell_chain dm tm entry rest _ h1.2.2⟩
    · exact trailingStopRun_sell_chain dm tm entry rest cur hcur

/-- C3: while a stop is already set (positive), a trailing-stop check for a
long position pushes a new stop exactly when the candidate
`price − ATR × distance multiplier` is strictly above the existing stop, and
the pushed value is that candidate; hence over any sequence of checks the
sequence of stops sent to the exchange never decreases.  Symmetrically, for
a short position the stop is pushed only when strictly below the existing
one and the sequence never increases. -/
theorem trailing_stop_pushes_only_improvements :
    (∀ dm tm entry price atr cur s : ℚ, 0 < cur →
      trailingStopStep dm tm "Buy" entry price atr cur = some s →
      cur < s ∧ s = price - atr * dm) ∧
    (∀ (dm tm entry : ℚ) (inputs : List (ℚ × ℚ)) (cur : ℚ), 0 < cur →
      List.Chain' (· ≤ ·)
        (cur :: trailingStopRun dm tm "Buy" entry cur inputs)) ∧
    (∀ dm tm entry price atr cur s : ℚ, 0 < cur →
      trailingStopStep dm tm "Sell" entry price atr cur = some s →
      s < cur ∧ s = price + atr * dm) ∧
    (∀ (dm tm entry : ℚ) (inputs : List (ℚ × ℚ)) (cur : ℚ), 0 < cur →
      List.Chain' (fun a b => b ≤ a)
        (cur :: trailingStopRun dm tm "Sell" entry cur inputs)) := by
  refine ⟨?_, trailingStopRun_buy_chain, ?_, trailingStopRun_sell_chain⟩
  · intro dm tm entry price atr cur s hcur h
    rw [trailingStopStep_buy_of_pos hcur] at h
    split_ifs at h with h1
    cases h
    exact ⟨h1.2, rfl⟩
  · intro dm tm entry price atr cur s hcur h
    rw [trailingStopStep_sell_of_pos hcur] at h
    split_ifs at h with h1
    cases h
    exact ⟨h1.2.1, rfl⟩

/-- Witness for `trailing_stop_pushes_only_improvements`: with
distance multiplier 1.5, trigger multiplier 1, entry 100, price 110, ATR 2
and current stop 100, the long check pushes 107 with 100 < 107, and a
two-sample run yields the nondecreasing stop sequence [107, 110]. -/
theorem trailing_stop_pushes_only_improvements_witness :
    trailingStopStep (3/2) 1 "Buy" 100 110 2 100 = some 107 ∧
    (100 : ℚ) < 107 ∧
    trailingStopRun (3/2) 1 "Buy" 100 100 [(110, 2), (113, 2)] =
      [107, 110] ∧
    List.Chain' (· ≤ ·)
      ((100 : ℚ) :: trailingStopRun (3/2) 1 "Buy" 100 100
        [(110, 2), (113, 2)]) := by
  have hstep : trailingStopStep (3/2) 1 "Buy" 100 110 2 100 = some 107 := by
    rw [trailingStopStep_buy_of_pos (by norm_num)]
    norm_num
  have hrun : trailingStopRun (3/2) 1 "Buy" 100 100 [(110, 2), (113, 2)] =
      [107, 110] := by
    rw [trailingStopRun, trailingStopStep_buy_of_pos (by norm_num)]
    norm_num
    rw [trailingStopRun, trailingStopStep_buy_of_pos (by norm_num)]
    norm_num
    rw [trailingStopRun]
  exact ⟨hstep,
    (trailing_stop_pushes_only_improvements.1 (3/2) 1 100 110 2 100 107
      (by norm_num) hstep).1,
    hrun,
    trailing_stop_pushes_only_improvements.2.1 (3/2) 1 100
      [(110, 2), (113, 2)] 100 (by norm_num)⟩

/-- C4 (code bug): with the day's baseline at 1000 and the balance at 840
(a 16% drawdown), `check_max_daily_loss` would fire — but a trading-loop
iteration in that exact state does not halt, because the loop consults only
`comprehensive_check` (which omits the max-daily-loss detector) and
`check_max_daily_loss` has no caller anywhere in the repository; the daily
state flows through an iteration untouched. -/
theorem max_daily_loss_never_halts_loop :
    (checkMaxDailyLoss ⟨some 1000, some 0⟩ 840 0).2 = true ∧
    (tradingIterationProtection ⟨[], some 1000, some 0⟩
      [("BTCUSDT_PERPETUAL", ⟨100, 100, 100, 50, 1, 800, 1, some 7⟩)] 840 0
      ⟨none, none, 0, none, [], 0, 0, 0⟩).2 = false ∧
    (tradingIterationProtection ⟨[], some 1000, some 0⟩
      [("BTCUSDT_PERPETUAL", ⟨100, 100, 100, 50, 1, 800, 1, some 7⟩)] 840 0
      ⟨none, none, 0, none, [], 0, 0, 0⟩).1.daily = ⟨some 1000, some 0⟩ := by
  refine ⟨?_, ?_, rfl⟩
  · norm_num [checkMaxDailyLoss]
  · norm_num [tradingIterationProtection, comprehensiveCheck,
      checkMultiAssetCrash, crashCount, checkConsecutiveStops,
      lookupMarketData, heldSymbolReasons]

/-- C5 (code bug): a successful full close whose reason names a stop leaves
the protection state's rolling stop-loss window unchanged — the close path
contains no call to `record_stop_loss`, which has no caller in the
repository — even though the close itself succeeds (reduce-only market
order submitted, position cleared).  The halves of the claim that the code
does implement hold: `record_stop_loss` appends exactly one timestamp, and
`check_consecutive_stops` prunes a timestamp once it is more than 4 hours
old while keeping younger ones. -/
theorem stop_close_does_not_record_stop_loss :
    ((closePositionSystem
        ⟨some "Buy", some "BTCUSDT_PERPETUAL", 50000, some 0, [], 1, 1, 0⟩
        ⟨[], none, none⟩
        ⟨some [⟨"BTCUSDT", "Buy", 1/50, 50000⟩], true⟩
        "stop loss hit").1.2).recentStopLosses = [] ∧
    (closePositionSystem
        ⟨some "Buy", some "BTCUSDT_PERPETUAL", 50000, some 0, [], 1, 1, 0⟩
        ⟨[], none, none⟩
        ⟨some [⟨"BTCUSDT", "Buy", 1/50, 50000⟩], true⟩
        "stop loss hit").2 =
      [Effect.placeOrder "BTCUSDT" "Sell" "Market" (1/50) none none none true] ∧
    ((closePositionSystem
        ⟨some "Buy", some "BTCUSDT_PERPETUAL", 50000, some 0, [], 1, 1, 0⟩
        ⟨[], none, none⟩
        ⟨some [⟨"BTCUSDT", "Buy", 1/50, 50000⟩], true⟩
        "stop loss hit").1.1).currentPosition = none ∧
    recordStopLoss [] 0 = [0] ∧
    checkConsecutiveStops [0] 5 = ([], false) ∧
    checkConsecutiveStops [0] 3 = ([0], false) := by
  have hsym : stripPerpetual "BTCUSDT_PERPETUAL" = "BTCUSDT" := by decide
  refine ⟨rfl, ?_, ?_, rfl, ?_, ?_⟩
  · simp only [closePositionSystem, closePosition, hsym]
    norm_num
  · simp only [closePositionSystem, closePosition, hsym]
    norm_num
  · norm_num [checkConsecutiveStops]
  · norm_num [checkConsecutiveStops]

/-- C7: the combined protection check carries the multi-asset-crash reason
exactly when at least two tracked symbols dropped more than 5% open-to-close
on their latest 15m candle; and when at most one symbol shows such a drop
and no other detector fires, the verdict is "no protection". -/
theorem multi_asset_crash_detection (recentStops : List ℚ)
    (all : List (String × MarketData)) (balance now : ℚ)
    (hasPosition : Bool) (currentSymbol : Option String) :
    (ReasonTag.multiAssetCrash ∈
        (comprehensiveCheck recentStops all balance now hasPosition
          currentSymbol).2.2 ↔ 2 ≤ crashCount all) ∧
    (crashCount all ≤ 1 →
      (∀ sym md, currentSymbol = some sym →
        lookupMarketData all sym = some md →
        checkFlashCrash md = false ∧ checkLiquidityCrisis md = false ∧
        checkVolatilitySurge md = false) →
      (checkConsecutiveStops recentStops now).1.length < 3 →
      (comprehensiveCheck recentStops all balance now hasPosition
        currentSymbol).2.1 = false) := by
  have hr2sub : ∀ x, x ∈ heldSymbolReasons all hasPosition currentSymbol →
      x ≠ ReasonTag.multiAssetCrash := by
    intro x hx
    rcases currentSymbol with _ | sym
    · simp [heldSymbolReasons] at hx
    · cases hasPosition
      · simp [heldSymbolReasons] at hx
      · simp only [heldSymbolReasons, if_pos rfl] at hx
        cases hlk : lookupMarketData all sym with
        | none => rw [hlk] at hx; simp [heldSymbolReasonsData] at hx
        | some md =>
          rw [hlk] at hx
          simp only [heldSymbolReasonsData] at hx
          split_ifs at hx <;> rintro rfl <;> simp_all
  have hr2empty : (∀ sym md, currentSymbol = some sym →
      lookupMarketData all sym = some md →
      checkFlashCrash md = false ∧ checkLiquidityCrisis md = false ∧
      checkVolatilitySurge md = false) →
      heldSymbolReasons all hasPosition currentSymbol = [] := by
    intro hdet
    rcases currentSymbol with _ | sym
    · simp [heldSymbolReasons]
    · cases hasPosition
      · simp [heldSymbolReasons]
      · simp only [heldSymbolReasons, if_pos rfl]
        cases hlk : lookupMarketData all sym with
        | none => simp [heldSymbolReasonsData]
        | some md =>
          obtain ⟨hf, hl, hv⟩ := hdet sym md rfl hlk
          simp [heldSymbolReasonsData, hf, hl, hv]
  constructor
  · unfold comprehensiveCheck
    by_cases hc : 2 ≤ crashCount all
    · simp [checkMultiAssetCrash, hc]
    · simp only [checkMultiAssetCrash]
      rw [if_neg (by simpa using hc)]
      simp only [List.nil_append, List.mem_append]
      constructor
      · rintro (hmem | hmem)
        · exact absurd rfl (hr2sub _ hmem)
        · by_cases hcs : (checkConsecutiveStops recentStops now).2 <;>
            simp [hcs] at hmem
      · intro h
        exact absurd h hc
  · intro hcount hdet hstops
    unfold comprehensiveCheck
    have h1 : ¬ (2 ≤ crashCount all) := by omega
    have h3 : (checkConsecutiveStops recentStops now).2 = false := by
      simp only [checkConsecutiveStops] at hstops ⊢
      simp only [decide_eq_false_iff_not]
      omega
    simp only [checkMultiAssetCrash, hr2empty hdet, h3]
    simp [h1]

/-- Witness for `multi_asset_crash_detection`: two of three tracked symbols
drop 6% on the latest 15m candle — the reason list carries the multi-asset
crash tag; with only one such symbol, no position held and an empty stop
window, the verdict is false. -/
theorem multi_asset_crash_detection_witness :
    (2 ≤ crashCount
      [("BTCUSDT_PERPETUAL", ⟨100, 94, 94, 50, 1, 800, 1, some 7⟩),
       ("ETHUSDT_PERPETUAL", ⟨100, 94, 94, 50, 1, 800, 1, some 7⟩),
       ("SOLUSDT_PERPETUAL", ⟨100, 100, 100, 50, 1, 800, 1, some 7⟩)]) ∧
    ReasonTag.multiAssetCrash ∈
      (comprehensiveCheck [] [("BTCUSDT_PERPETUAL", ⟨100, 94, 94, 50, 1, 800, 1, some 7⟩),
       ("ETHUSDT_PERPETUAL", ⟨100, 94, 94, 50, 1, 800, 1, some 7⟩),
       ("SOLUSDT_PERPETUAL", ⟨100, 100, 100, 50, 1, 800, 1, some 7⟩)]
        1000 0 false none).2.2 ∧
    (comprehensiveCheck [] [("BTCUSDT_PERPETUAL", ⟨100, 94, 94, 50, 1, 800, 1, some 7⟩),
       ("ETHUSDT_PERPETUAL", ⟨100, 100, 100, 50, 1, 800, 1, some 7⟩),
       ("SOLUSDT_PERPETUAL", ⟨100, 100, 100, 50, 1, 800, 1, some 7⟩)]
        1000 0 false none).2.1 = false := by
  have hcount : (2 ≤ crashCount
      [("BTCUSDT_PERPETUAL", ⟨100, 94, 94, 50, 1, 800, 1, some 7⟩),
       ("ETHUSDT_PERPETUAL", ⟨100, 94, 94, 50, 1, 800, 1, some 7⟩),
       ("SOLUSDT_PERPETUAL", ⟨100, 100, 100, 50, 1, 800, 1, some 7⟩)]) := by
    norm_num [crashCount]
  have hcount1 : crashCount
      [("BTCUSDT_PERPETUAL", ⟨100, 94, 94, 50, 1, 800, 1, some 7⟩),
       ("ETHUSDT_PERPETUAL", ⟨100, 100, 100, 50, 1, 800, 1, some 7⟩),
       ("SOLUSDT_PERPETUAL", ⟨100, 100, 100, 50, 1, 800, 1, some 7⟩)] ≤ 1 := by
    norm_num [crashCount]
  refine ⟨hcount, ?_, ?_⟩
  · exact (multi_asset_crash_detection [] _ 1000 0 false none).1.mpr hcount
  · exact (multi_asset_crash_detection [] _ 1000 0 false none).2 hcount1
      (by intro sym md h; cases h) (by norm_num [checkConsecutiveStops])

/-- C6 counterexample: with tick size 1 (≥ 1) the source truncates
(`int(price / tick) * tick`) instead of rounding to the nearest multiple:
price 10.9 formats to 10, yet 11 is an in-range multiple strictly closer to
10.9, so the formatted price is not the nearest multiple. -/
theorem format_price_not_nearest :
    formatPrice ⟨1, 1, 100000, 1, 1, 100, 0, 0, true, true⟩ (109/10) = 10 ∧
    |(109/10 : ℚ) - 11| < |(109/10 : ℚ) - 10| ∧
    IsStepMultiple 1 (11 : ℚ) ∧ (1 : ℚ) ≤ 11 ∧ (11 : ℚ) ≤ 100000 := by
  have hr : roundToStep (1 : ℚ) (109/10) = 10 := by
    norm_num [roundToStep, pyInt]
  have habs : |(109/10 : ℚ) - 11| < |(109/10 : ℚ) - 10| := by
    have e1 : |(109/10 : ℚ) - 11| = 1/10 := by
      rw [abs_sub_comm, abs_of_nonneg (by norm_num : (0:ℚ) ≤ 11 - 109/10)]
      norm_num
    have e2 : |(109/10 : ℚ) - 10| = 9/10 := by
      rw [abs_of_nonneg (by norm_num : (0:ℚ) ≤ 109/10 - 10)]
      norm_num
    rw [e1, e2]
    norm_num
  exact ⟨formatPrice_eval _ _ _ hr (by norm_num) (by norm_num),
    habs, ⟨11, by norm_num⟩, by norm_num, by norm_num⟩

theorem formatPrice_multiple_bounds (r : TradingRules) (x : ℚ)
    (hmm : r.min_price ≤ r.max_price)
    (hmn : IsStepMultiple r.tick_size r.min_price)
    (hmx : IsStepMultiple r.tick_size r.max_price) :
    IsStepMultiple r.tick_size (formatPrice r x) ∧
    r.min_price ≤ formatPrice r x ∧ formatPrice r x ≤ r.max_price := by
  simp only [formatPrice]
  have hym : IsStepMultiple r.tick_size (roundToStep r.tick_size x) :=
    roundToStep_isStepMultiple _ _
  by_cases h1 : roundToStep r.tick_size x < r.min_price
  · rw [if_pos h1, if_neg (not_lt.mpr hmm)]
    exact ⟨hmn, le_refl _, hmm⟩
  · rw [if_neg h1]
    by_cases h2 : roundToStep r.tick_size x > r.max_price
    · rw [if_pos h2]
      exact ⟨hmx, hmm, le_refl _⟩
    · rw [if_neg h2]
      exact ⟨hym, not_lt.mp h1, not_lt.mp h2⟩

theorem formatQuantity_multiple_bounds (r : TradingRules) (x : ℚ)
    (hmm : r.min_order_qty ≤ r.max_order_qty)
    (hmn : IsStepMultiple r.qty_step r.min_order_qty)
    (hmx : IsStepMultiple r.qty_step r.max_order_qty) :
    IsStepMultiple r.qty_step (formatQuantity r x) ∧
    r.min_order_qty ≤ formatQuantity r x ∧
    formatQuantity r x ≤ r.max_order_qty := by
  simp only [formatQuantity]
  have hym : IsStepMultiple r.qty_step (roundToStep r.qty_step x) :=
    roundToStep_isStepMultiple _ _
  by_cases h1 : roundToStep r.qty_step x < r.min_order_qty
  · rw [if_pos h1, if_neg (not_lt.mpr hmm)]
    exact ⟨hmn, le_refl _, hmm⟩
  · rw [if_neg h1]
    by_cases h2 : roundToStep r.qty_step x > r.max_order_qty
    · rw [if_pos h2]
      exact ⟨hmx, hmm, le_refl _⟩
    · rw [if_neg h2]
      exact ⟨hym, not_lt.mp h1, not_lt.mp h2⟩

theorem roundToStep_nearest_of_small (t z : ℚ) (h1 : ¬ 1 ≤ t) (ht : 0 < t) :
    |roundToStep t z - z| ≤ t / 2 := by
  unfold roundToStep
  rw [if_neg h1]
  have h := abs_pyRound_sub_le (z / t)
  have hsplit : (pyRound (z/t) : ℚ) * t - z = ((pyRound (z/t) : ℚ) - z/t) * t := by
    field_simp
  rw [hsplit, abs_mul, abs_of_pos ht]
  calc |(pyRound (z/t) : ℚ) - z/t| * t ≤ (1/2) * t :=
        mul_le_mul_of_nonneg_right h (le_of_lt ht)
    _ = t / 2 := by ring

theorem roundToStep_trunc_of_big (t z : ℚ) (h1 : 1 ≤ t) (hz : 0 ≤ z) :
    roundToStep t z ≤ z ∧ z - roundToStep t z < t := by
  unfold roundToStep
  rw [if_pos h1]
  have ht : 0 < t := lt_of_lt_of_le one_pos h1
  have hge : (0:ℚ) ≤ z / t := div_nonneg hz (le_of_lt ht)
  rw [pyInt, if_pos hge]
  constructor
  · calc (⌊z/t⌋ : ℚ) * t ≤ (z/t) * t :=
        mul_le_mul_of_nonneg_right (Int.floor_le (z / t)) (le_of_lt ht)
    _ = z := div_mul_cancel₀ z (ne_of_gt ht)
  · have h2 : z / t * t < ((⌊z/t⌋ : ℚ) + 1) * t :=
      mul_lt_mul_of_pos_right (Int.lt_floor_add_one (z / t)) ht
    rw [div_mul_cancel₀ z (ne_of_gt ht)] at h2
    linarith

/-- C6 amended: provided the instrument's min/max are themselves multiples
of its tick/step, with min ≤ max and a positive tick/step, the formatted
price and quantity are exact multiples of the tick/step, lie within
[min, max], and formatting is idempotent.  The rounding to a multiple is to
the nearest (ties to even) only when the tick/step is below 1; for a
tick/step of 1 or more the source truncates toward zero (never exceeding
the input, by less than one step), rather than rounding to the nearest. -/
theorem format_functions_amended (r : TradingRules) (x : ℚ)
    (htp : 0 < r.tick_size) (hpm : r.min_price ≤ r.max_price)
    (hpmin : IsStepMultiple r.tick_size r.min_price)
    (hpmax : IsStepMultiple r.tick_size r.max_price)
    (htq : 0 < r.qty_step) (hqm : r.min_order_qty ≤ r.max_order_qty)
    (hqmin : IsStepMultiple r.qty_step r.min_order_qty)
    (hqmax : IsStepMultiple r.qty_step r.max_order_qty) :
    (IsStepMultiple r.tick_size (formatPrice r x) ∧
     r.min_price ≤ formatPrice r x ∧ formatPrice r x ≤ r.max_price ∧
     formatPrice r (formatPrice r x) = formatPrice r x) ∧
    (IsStepMultiple r.qty_step (formatQuantity r x) ∧
     r.min_order_qty ≤ formatQuantity r x ∧
     formatQuantity r x ≤ r.max_order_qty ∧
     formatQuantity r (formatQuantity r x) = formatQuantity r x) ∧
    (∀ t z : ℚ, ¬ 1 ≤ t → 0 < t → |roundToStep t z - z| ≤ t / 2) ∧
    (∀ t z : ℚ, 1 ≤ t → 0 ≤ z →
      roundToStep t z ≤ z ∧ z - roundToStep t z < t) := by
  obtain ⟨hm1, hlo1, hhi1⟩ := formatPrice_multiple_bounds r x hpm hpmin hpmax
  obtain ⟨hm2, hlo2, hhi2⟩ := formatQuantity_multiple_bounds r x hqm hqmin hqmax
  refine ⟨⟨hm1, hlo1, hhi1, ?_⟩, ⟨hm2, hlo2, hhi2, ?_⟩,
    roundToStep_nearest_of_small, roundToStep_trunc_of_big⟩
  · exact formatPrice_eval r _ _
      (roundToStep_self_of_multiple (ne_of_gt htp) hm1)
      (not_lt.mpr hlo1) (not_lt.mpr hhi1)
  · exact formatQuantity_eval r _ _
      (roundToStep_self_of_multiple (ne_of_gt htq) hm2)
      (not_lt.mpr hlo2) (not_lt.mpr hhi2)

/-- Witness for `format_functions_amended`: an instrument with tick/step
0.5 and bounds that are multiples of it; 10.3 formats to 10.5 (price and
quantity), a multiple within bounds, and formatting again is stable. -/
theorem format_functions_amended_witness :
    formatPrice ⟨1/2, 1/2, 1000, 1/2, 1/2, 1000, 0, 0, true, true⟩
      (103/10) = 21/2 ∧
    (IsStepMultiple (1/2 : ℚ)
        (formatPrice ⟨1/2, 1/2, 1000, 1/2, 1/2, 1000, 0, 0, true, true⟩
          (103/10)) ∧
      formatPrice ⟨1/2, 1/2, 1000, 1/2, 1/2, 1000, 0, 0, true, true⟩
        (formatPrice ⟨1/2, 1/2, 1000, 1/2, 1/2, 1000, 0, 0, true, true⟩
          (103/10)) =
        formatPrice ⟨1/2, 1/2, 1000, 1/2, 1/2, 1000, 0, 0, true, true⟩
          (103/10)) := by
  have hfmt : formatPrice ⟨1/2, 1/2, 1000, 1/2, 1/2, 1000, 0, 0, true, true⟩
      (103/10) = 21/2 := by
    have hr : roundToStep (1/2 : ℚ) (103/10) = 21/2 := by
      norm_num [roundToStep, pyRound, round_eq]
    exact formatPrice_eval _ _ _ hr (by norm_num) (by norm_num)
  have h := format_functions_amended
    ⟨1/2, 1/2, 1000, 1/2, 1/2, 1000, 0, 0, true, true⟩ (103/10)
    (by norm_num) (by norm_num) ⟨1, by norm_num⟩ ⟨2000, by norm_num⟩
    (by norm_num) (by norm_num) ⟨1, by norm_num⟩ ⟨2000, by norm_num⟩
  exact ⟨hfmt, h.1.1, h.1.2.2.2⟩

/-- C10: a quantity whose step-rounded value falls below the instrument's
minimum order quantity is not rejected by `_format_quantity` but silently
raised to exactly that minimum, and one above the maximum is lowered to the
maximum; in particular a requested 0.001 against a 0.01 minimum is submitted
as 0.01, exceeding the size implied by the requested position fraction. -/
theorem quantity_clamped_to_min_max (r : TradingRules) (q : ℚ)
    (hmm : r.min_order_qty ≤ r.max_order_qty) :
    (roundToStep r.qty_step q < r.min_order_qty →
      formatQuantity r q = r.min_order_qty) ∧
    (r.max_order_qty < roundToStep r.qty_step q →
      formatQuantity r q = r.max_order_qty) ∧
    formatQuantity ⟨1/10, 1/100, 1000000, 1/100, 1/100, 100, 0, 0, true, true⟩
      (1/1000) = 1/100 ∧
    (1/1000 : ℚ) < 1/100 := by
  refine ⟨?_, ?_, ?_, by norm_num⟩
  · intro h
    simp only [formatQuantity]
    rw [if_pos h, if_neg (not_lt.mpr hmm)]
  · intro h
    simp only [formatQuantity]
    rw [if_neg (not_lt.mpr (le_trans hmm (le_of_lt h))), if_pos h]
  · norm_num [formatQuantity, roundToStep, pyRound, round_eq]

/-- Witness for `quantity_clamped_to_min_max`: the rounded value 0 is below
the 0.01 minimum and the formatter returns exactly the minimum. -/
theorem quantity_clamped_to_min_max_witness :
    roundToStep (1/100 : ℚ) (1/1000) < (1/100 : ℚ) ∧
    formatQuantity ⟨1/10, 1/100, 1000000, 1/100, 1/100, 100, 0, 0, true, true⟩
      (1/1000) = 1/100 := by
  have hlt : roundToStep (1/100 : ℚ) (1/1000) < (1/100 : ℚ) := by
    norm_num [roundToStep, pyRound, round_eq]
  exact ⟨hlt,
    (quantity_clamped_to_min_max
      ⟨1/10, 1/100, 1000000, 1/100, 1/100, 100, 0, 0, true, true⟩
      (1/1000) (by norm_num)).1 hlt⟩

/-- C8: servicing a still-open pending limit order past its timeout follows
the policy answer: `continue_wait` leaves the monitored set (and the age
timer) untouched; `modify p` cancels the old order, places an equivalent
limit order (same symbol, side and quantity) at the new price, and
re-registers the tracked order with its age timer reset to now; `cancel`
cancels and removes it; `cancel_and_market` cancels it and submits an
equivalent market order. -/
theorem pending_limit_order_timeout_actions (st : SysState) (env : PendingEnv)
    (oid : String) (info : PendingOrder) (p : ℚ)
    (hfind : (st.pending.find? (fun e => decide (e.1 = oid))).map (·.2) =
      some info)
    (hstatus : env.orderStatus = some "New")
    (htime : env.limitOrderTimeout ≤ env.now - info.createTime)
    (htk : env.tickerOk = true)
    (hcs : env.cancelSucceeds = true)
    (hps : env.placeSucceeds = true)
    (hp : ¬ p = 0) :
    checkPendingOrder st env .continueWait oid = (st, []) ∧
    checkPendingOrder st env (.modify (some p)) oid =
      ({ st with pending :=
          (st.pending.filter (fun e => decide (e.1 ≠ oid))) ++
          [(env.newOrderId,
            { info with price := p, createTime := env.now })] },
       [Effect.cancelOrder info.symbol oid,
        Effect.placeOrder info.symbol info.side "Limit" info.qty
          (some (formatPriceOpt env.rules p))
          (if info.decisionStopLoss ≠ 0 then
            some (formatPriceOpt env.rules info.decisionStopLoss) else none)
          (tpFieldOfModify env.rules info.decisionTakeProfit) false]) ∧
    checkPendingOrder st env .cancel oid =
      (removePending st oid, [Effect.cancelOrder info.symbol oid]) ∧
    checkPendingOrder st env .cancelAndMarket oid =
      (removePending st oid,
       [Effect.cancelOrder info.symbol oid,
        Effect.placeOrder info.symbol info.side "Market" info.qty
          none none none false]) := by
  have hgate : ∀ a : LimitAction, checkPendingOrder st env a oid =
      (match a with
       | .cancelAndMarket =>
         (removePending st oid, cancelAndPlaceMarket env oid info)
       | .modify suggested =>
         let r := modifyLimitOrderPrice st env oid info suggested
         (r.1, r.2.2)
       | .cancel => (removePending st oid, [Effect.cancelOrder info.symbol oid])
       | .continueWait => (st, [])) := by
    intro a
    unfold checkPendingOrder
    rw [hfind, hstatus]
    dsimp only
    rw [if_neg (by decide), if_pos ⟨htime, Or.inl rfl⟩]
  have hmod : modifyLimitOrderPrice st env oid info (some p) =
      ({ st with pending :=
          (st.pending.filter (fun e => decide (e.1 ≠ oid))) ++
          [(env.newOrderId,
            { info with price := p, createTime := env.now })] },
       some p,
       [Effect.cancelOrder info.symbol oid,
        Effect.placeOrder info.symbol info.side "Limit" info.qty
          (some (formatPriceOpt env.rules p))
          (if info.decisionStopLoss ≠ 0 then
            some (formatPriceOpt env.rules info.decisionStopLoss) else none)
          (tpFieldOfModify env.rules info.decisionTakeProfit) false]) := by
    unfold modifyLimitOrderPrice
    rw [if_neg (by simp [htk])]
    dsimp only
    rw [if_neg hp, if_neg (by simp [hcs]), if_pos hps]
  refine ⟨?_, ?_, ?_, ?_⟩
  · rw [hgate]
  · rw [hgate]
    simp only [hmod]
  · rw [hgate]
  · rw [hgate]
    unfold cancelAndPlaceMarket
    rw [if_neg (by simp [hcs])]

/-- Witness for `pending_limit_order_timeout_actions`: the spec's example —
an order created at time 0 checked at 301 s against a 300 s timeout;
`continue_wait` leaves it untouched, `modify 49950` cancels, re-places at
49950 and re-registers the order with its timer set to 301. -/
theorem pending_limit_order_timeout_actions_witness :
    checkPendingOrder
      ⟨none, none, 0, none,
        [("o1", ⟨"BTCUSDT", 0, "Buy", 50000, 1/50, 0, [], "BTCUSDT_PERPETUAL"⟩)],
        0, 0, 0⟩
      ⟨301, 300, some "New", true, 50000, none, true, none, true, "o2"⟩
      .continueWait "o1" =
      (⟨none, none, 0, none,
        [("o1", ⟨"BTCUSDT", 0, "Buy", 50000, 1/50, 0, [], "BTCUSDT_PERPETUAL"⟩)],
        0, 0, 0⟩, []) ∧
    checkPendingOrder
      ⟨none, none, 0, none,
        [("o1", ⟨"BTCUSDT", 0, "Buy", 50000, 1/50, 0, [], "BTCUSDT_PERPETUAL"⟩)],
        0, 0, 0⟩
      ⟨301, 300, some "New", true, 50000, none, true, none, true, "o2"⟩
      (.modify (some 49950)) "o1" =
      (⟨none, none, 0, none,
        [("o2", ⟨"BTCUSDT", 301, "Buy", 49950, 1/50, 0, [], "BTCUSDT_PERPETUAL"⟩)],
        0, 0, 0⟩,
       [Effect.cancelOrder "BTCUSDT" "o1",
        Effect.placeOrder "BTCUSDT" "Buy" "Limit" (1/50) (some 49950)
          none none false]) := by
  have h := pending_limit_order_timeout_actions
    ⟨none, none, 0, none,
      [("o1", ⟨"BTCUSDT", 0, "Buy", 50000, 1/50, 0, [], "BTCUSDT_PERPETUAL"⟩)],
      0, 0, 0⟩
    ⟨301, 300, some "New", true, 50000, none, true, none, true, "o2"⟩
    "o1" ⟨"BTCUSDT", 0, "Buy", 50000, 1/50, 0, [], "BTCUSDT_PERPETUAL"⟩ 49950
    (by simp) rfl (by norm_num) rfl rfl rfl (by norm_num)
  refine ⟨h.1, ?_⟩
  rw [h.2.1]
  have hfmt : formatPriceOpt (none : Option TradingRules) 49950 = 49950 := by
    norm_num [formatPriceOpt, pyRoundDec, pyRound, round_eq]
  norm_num [hfmt, tpFieldOfModify, removePending]

end Engine
